import Mathlib

/-!
# Verification of the trajectory parametrization engine (xpp/towr)

Shallow embedding of the polynomial-segment trajectory representation from
`src/include/xpp/zmp/zmp_spline.h` and `src/include/xpp/opt/endeffectors_motion.h`.
Doubles are modelled as rationals `ℚ`; machine integers as `ℕ`/`ℤ`.

The repository under verification ships only the headers: every method body that
lives in a `.cc` file (`zmp_spline.cc`, implementations of `EndeffectorsMotion`
and the per-limb `EEMotion`) is absent from the sources.  Those operations are
modelled from the specification; each such definition carries a doc comment
starting with `Modelled from the spec:`.  Definitions whose body appears inline
in a header (`GetDuration`, `GetType`, `GetNodeCount`, `IsFourLegSupport`,
`GetId`) are translated directly from the source.
-/

namespace Xpp

/-- The two planar axes (source: `xpp::utils::kDim2d = 2`, `d2::Coords`). -/
inductive Coord : Type
  | X : Coord
  | Y : Coord
deriving DecidableEq, Repr, Fintype

/-- Source `zmp_spline.h` line 79:
`enum ZmpSplineType {Initial4lsSpline, StepSpline, Intermediate4lsSpline, Final4lsSpline}`. -/
inductive ZmpSplineType : Type
  | Initial4lsSpline : ZmpSplineType
  | StepSpline : ZmpSplineType
  | Intermediate4lsSpline : ZmpSplineType
  | Final4lsSpline : ZmpSplineType
deriving DecidableEq, Repr

/-- Source `zmp_spline.h` line 29: `enum PosVelAcc { kPos=0, kVel, kAcc }`. -/
inductive PosVelAcc : Type
  | kPos : PosVelAcc
  | kVel : PosVelAcc
  | kAcc : PosVelAcc
deriving DecidableEq, Repr

/-- Failure modes named by the specification (section 7 error taxonomy). -/
inductive MotionError : Type
  | ScheduleHorizonMismatch : MotionError
  | InvalidDuration : MotionError
  | ParameterVectorLengthMismatch : MotionError
  | InvalidParameterCount : MotionError
  | TimeOutOfRange : MotionError
  | UnknownLimb : MotionError
  | NoActivePhase : MotionError
deriving DecidableEq, Repr

/-- Decidable equality of `Except` results, used to evaluate the embedding on
concrete inputs. -/
instance {e a : Type} [DecidableEq e] [DecidableEq a] : DecidableEq (Except e a)
  | Except.ok x, Except.ok y =>
      if h : x = y then Decidable.isTrue (by rw [h])
      else Decidable.isFalse (by simp [h])
  | Except.error x, Except.error y =>
      if h : x = y then Decidable.isTrue (by rw [h])
      else Decidable.isFalse (by simp [h])
  | Except.ok _, Except.error _ => Decidable.isFalse (by simp)
  | Except.error _, Except.ok _ => Decidable.isFalse (by simp)

/-- A polynomial segment.  Fields from source `zmp_spline.h`: the `Spline` base
holds `spline_coeff_[kDim2d][kCoeffCount]` (here `coeff`, six coefficients per
axis, `kCoeffCount = 6`); `ZmpSpline` adds `id_`, `duration_`, `type_` and
`curr_or_planned_` ("current step if step spline, otherwise planned next step").
The `free` flags record which coefficient indices are optimization variables
(spec section 9: coefficient storage with accompanying free/fixed flags). -/
structure ZmpSpline : Type where
  id : ℕ
  duration : ℚ
  type : ZmpSplineType
  currOrPlanned : ℕ
  coeff : Coord → Fin 6 → ℚ
  free : Fin 6 → Bool
deriving DecidableEq

namespace ZmpSpline

/-- Source `zmp_spline.h` line 88: `double GetDuration() const { return duration_; }`. -/
def GetDuration (s : ZmpSpline) : ℚ := s.duration

/-- Source `zmp_spline.h` line 89: `ZmpSplineType GetType() const { return type_; }`. -/
def GetType (s : ZmpSpline) : ZmpSplineType := s.type

/-- Source `zmp_spline.h` line 87: `uint GetId() const { return id_; }`. -/
def GetId (s : ZmpSpline) : ℕ := s.id

/-- Source `zmp_spline.h` line 99:
`int GetNodeCount(double dt) const { return std::floor(duration_/dt); }`. -/
def GetNodeCount (s : ZmpSpline) (dt : ℚ) : ℤ := ⌊s.duration / dt⌋

/-- Source `zmp_spline.h` line 100:
`bool IsFourLegSupport() const { return type_ != StepSpline; }`. -/
def IsFourLegSupport (s : ZmpSpline) : Bool :=
  decide (s.type ≠ ZmpSplineType.StepSpline)

/-- Modelled from the spec: `ZmpSpline::GetCurrStep` (body in the missing
`zmp_spline.cc`).  Header comment: valid "only if spline is a StepSpline",
then the step currently being executed; otherwise it fails. -/
def GetCurrStep (s : ZmpSpline) : Option ℕ :=
  if s.type = ZmpSplineType.StepSpline then some s.currOrPlanned else none

/-- Modelled from the spec: `ZmpSpline::GetNextPlannedStep` (body in the missing
`zmp_spline.cc`).  Header comment: valid "only if spline is currently a
four-leg support spline", then the step planned after the 4ls-phase. -/
def GetNextPlannedStep (s : ZmpSpline) : Option ℕ :=
  if s.type = ZmpSplineType.StepSpline then none else some s.currOrPlanned

/-- Modelled from the spec: the checked segment constructor
(`ZmpSpline(uint id, double duration, ZmpSplineType, uint step)`, body in the
missing `zmp_spline.cc`).  Spec section 3: "Invariant: duration > 0"; section 7:
an invalid non-positive duration is fatal at construction, no partial
construction.  Coefficients start at zero (`Spline()` default). -/
def mk? (id : ℕ) (duration : ℚ) (ty : ZmpSplineType) (step : ℕ) :
    Except MotionError ZmpSpline :=
  if 0 < duration then
    Except.ok
      { id := id, duration := duration, type := ty, currOrPlanned := step,
        coeff := fun _ _ => 0, free := fun _ => false }
  else Except.error MotionError.InvalidDuration

/-- Modelled from the spec: `Spline::GetState(whichDeriv, t)` (body in the
missing `zmp_spline.cc`).  Spec section 4.1: closed-form evaluation of the
degree-5 polynomial (order 0), of its exact first derivative (order 1) and of
its exact second derivative (order 2); spec section 4.1 fixes the coefficient
convention by `PartialDerivativeWrtCoefficient`: coefficient `i` multiplies
`t^i`. -/
def GetState (s : ZmpSpline) (d : PosVelAcc) (t : ℚ) (ax : Coord) : ℚ :=
  match d with
  | PosVelAcc.kPos => ∑ i : Fin 6, s.coeff ax i * t ^ (i : ℕ)
  | PosVelAcc.kVel => ∑ i : Fin 6, s.coeff ax i * ((i : ℕ) * t ^ ((i : ℕ) - 1))
  | PosVelAcc.kAcc =>
      ∑ i : Fin 6, s.coeff ax i * ((i : ℕ) * ((i : ℕ) - 1) * t ^ ((i : ℕ) - 2))

/-- Modelled from the spec: `PartialDerivativeWrtCoefficient` (no declaration
survives in the sources).  Spec section 4.1: returns `localTime^coefficientIndex`
for coefficient index 0..5 when the queried position axis matches the
coefficient's axis, and 0 for the other axis. -/
def PartialDerivativeWrtCoefficient (queryAx coeffAx : Coord) (i : Fin 6)
    (t : ℚ) : ℚ :=
  if queryAx = coeffAx then t ^ (i : ℕ) else 0

/-- The ordered list of free coefficient indices of a segment. -/
def freeIdx (s : ZmpSpline) : List (Fin 6) :=
  (List.finRange 6).filter (fun i => s.free i)

/-- Number of free optimization parameters owned by one segment: one per free
coefficient index and axis (spec order: coefficient, then axis). -/
def freeCount (s : ZmpSpline) : ℕ := 2 * (freeIdx s).length

/-- Reads the coefficients listed in `l` out of `c`, x value before y value
for each listed index (spec order: coefficient, then axis). -/
def coeffSlice (l : List (Fin 6)) (c : Coord → Fin 6 → ℚ) : List ℚ :=
  l.flatMap (fun i => [c Coord.X i, c Coord.Y i])

/-- Modelled from the spec: the free-coefficient slice one segment contributes
to `GetFreeParameterVector` — spec section 4.2 order: coefficient order, then
axis order, restricted to free coefficients. -/
def segGet (s : ZmpSpline) : List ℚ :=
  coeffSlice (freeIdx s) s.coeff

/-- Writes the values `v` (ordered as in `segGet`) into the coefficients listed
in `l`, leaving all other coefficients of `c` unchanged. -/
def writeCoeffs : List (Fin 6) → List ℚ → (Coord → Fin 6 → ℚ) → Coord → Fin 6 → ℚ
  | [], _, c => c
  | _ :: _, [], c => c
  | _ :: _, [_], c => c
  | j :: js, vx :: vy :: vs, c => fun ax i =>
      if i = j then (match ax with | Coord.X => vx | Coord.Y => vy)
      else writeCoeffs js vs c ax i

/-- Modelled from the spec: overwriting the free coefficients of one segment
with its slice of the incoming parameter vector (inverse of `segGet`). -/
def segSet (s : ZmpSpline) (v : List ℚ) : ZmpSpline :=
  { s with coeff := writeCoeffs (freeIdx s) v s.coeff }

end ZmpSpline

/-- A limb's motion: the ordered, chronological sequence of polynomial segments
(spec section 3, `LimbMotion`; implemented by the missing `EEMotion` class). -/
structure LimbMotion : Type where
  segments : List ZmpSpline
deriving DecidableEq

namespace LimbMotion

/-- Total active horizon of the limb: the sum of its segment durations. -/
def totalTime (lm : LimbMotion) : ℚ := (lm.segments.map ZmpSpline.duration).sum

/-- Length of the limb's free-parameter block. -/
def freeParamCount (lm : LimbMotion) : ℕ :=
  (lm.segments.map ZmpSpline.freeCount).sum

/-- Modelled from the spec: `GetFreeParameterVector` — concatenation, in the
fixed deterministic order (segment order, then coefficient order, then axis
order, restricted to free coefficients), of every free coefficient. -/
def GetFreeParameterVector (lm : LimbMotion) : List ℚ :=
  lm.segments.flatMap ZmpSpline.segGet

/-- Distributes an incoming parameter vector over the segments: each segment
consumes its own slice of `freeCount` values. -/
def setSegs : List ZmpSpline → List ℚ → List ZmpSpline
  | [], _ => []
  | s :: ss, v =>
      ZmpSpline.segSet s (v.take s.freeCount) :: setSegs ss (v.drop s.freeCount)

/-- Modelled from the spec: `SetFreeParameterVector(values)` — inverse of
`GetFreeParameterVector`; a length mismatch is a contract violation and fails
with InvalidParameterCount (spec section 4.2). -/
def SetFreeParameterVector (lm : LimbMotion) (v : List ℚ) :
    Except MotionError LimbMotion :=
  if v.length = lm.freeParamCount then Except.ok ⟨setSegs lm.segments v⟩
  else Except.error MotionError.InvalidParameterCount

/-- Modelled from the spec: global-time-to-segment resolution (spec section
4.2) — walk the ordered segment durations subtracting until the remainder
falls within the current segment; the final segment absorbs the residual at
the exact total-duration boundary. Returns the active segment and local time. -/
def resolve : List ZmpSpline → ℚ → Option (ZmpSpline × ℚ)
  | [], _ => none
  | [s], t => some (s, t)
  | s :: s2 :: rest, t =>
      if t ≤ s.duration then some (s, t) else resolve (s2 :: rest) (t - s.duration)

/-- Modelled from the spec: `StateAt(tGlobal)` — resolves segment and local
time, then delegates to the segment's evaluation for orders 0-2; a time outside
`[0, totalTime]` fails with TimeOutOfRange (spec sections 4.2, 4.3, 7). -/
def StateAt (lm : LimbMotion) (t : ℚ) :
    Except MotionError (PosVelAcc → Coord → ℚ) :=
  if t < 0 ∨ lm.totalTime < t then Except.error MotionError.TimeOutOfRange
  else
    match resolve lm.segments t with
    | none => Except.error MotionError.TimeOutOfRange
    | some (s, tl) => Except.ok (fun d ax => s.GetState d tl ax)

/-- The Jacobian entries contributed by the active segment: for each free
coefficient (coefficient order, then axis order) the partial derivative of the
queried position coordinate at the local time. -/
def segJacEntries (s : ZmpSpline) (ax : Coord) (tl : ℚ) : List ℚ :=
  (ZmpSpline.freeIdx s).flatMap (fun i =>
    [ZmpSpline.PartialDerivativeWrtCoefficient ax Coord.X i tl,
     ZmpSpline.PartialDerivativeWrtCoefficient ax Coord.Y i tl])

/-- The all-zero Jacobian block of an inactive segment. -/
def segZeros (s : ZmpSpline) : List ℚ := List.replicate s.freeCount 0

/-- Walks the segments exactly as `resolve` does, emitting the active segment's
partial-derivative entries and zeros for every other segment. -/
def jacAux : List ZmpSpline → ℚ → Coord → List ℚ
  | [], _, _ => []
  | [s], t, ax => segJacEntries s ax t
  | s :: s2 :: rest, t, ax =>
      if t ≤ s.duration then
        segJacEntries s ax t ++ (s2 :: rest).flatMap segZeros
      else segZeros s ++ jacAux (s2 :: rest) (t - s.duration) ax

/-- Modelled from the spec: `JacobianRowAt(tGlobal, axis)` — a vector the same
length as `GetFreeParameterVector`, zero everywhere except the active segment's
block, whose entries are `PartialDerivativeWrtCoefficient` at the local time
(spec section 4.2). -/
def JacobianRowAt (lm : LimbMotion) (t : ℚ) (ax : Coord) : List ℚ :=
  jacAux lm.segments t ax

end LimbMotion

/-- The motion of all endeffectors (source `endeffectors_motion.h`): one
`LimbMotion` per limb, limb ids being positions in the list (`EndeffectorID`). -/
structure EndeffectorsMotion : Type where
  limbs : List LimbMotion
deriving DecidableEq

namespace EndeffectorsMotion

/-- Source `endeffectors_motion.h` line 37: `GetNumberOfEndeffectors`. -/
def GetNumberOfEndeffectors (m : EndeffectorsMotion) : ℕ := m.limbs.length

/-- Total number of optimization parameters (`n_opt_params_`): the sum of all
limbs' free-parameter counts (spec section 3 invariant). -/
def totalParamCount (m : EndeffectorsMotion) : ℕ :=
  (m.limbs.map LimbMotion.freeParamCount).sum

/-- Modelled from the spec: `IndexStart(ee)` (declared at
`endeffectors_motion.h` line 43, body missing) — the stable starting offset of
limb `ee`'s free-parameter block, assigned by a left-to-right scan over limbs
in enumeration order (spec section 4.3). -/
def IndexStart (m : EndeffectorsMotion) (ee : ℕ) : ℕ :=
  ((m.limbs.take ee).map LimbMotion.freeParamCount).sum

/-- Modelled from the spec: `GetTotalTime()` — the shared horizon length,
identical across all limbs by construction (spec section 4.3). -/
def GetTotalTime (m : EndeffectorsMotion) : ℚ :=
  match m.limbs with
  | [] => 0
  | lm :: _ => lm.totalTime

/-- Modelled from the spec: `GetOptimizationParameters()` — the concatenation
of each limb's `GetFreeParameterVector()` in offset order (spec section 4.3). -/
def GetOptimizationParameters (m : EndeffectorsMotion) : List ℚ :=
  m.limbs.flatMap LimbMotion.GetFreeParameterVector

/-- Slices the incoming vector at each limb's recorded offset and length and
writes the slice into that limb's free coefficients. -/
def setLimbs : List LimbMotion → List ℚ → List LimbMotion
  | [], _ => []
  | lm :: ls, v =>
      ⟨LimbMotion.setSegs lm.segments (v.take lm.freeParamCount)⟩ ::
        setLimbs ls (v.drop lm.freeParamCount)

/-- Modelled from the spec: `SetOptimizationParameters(values)` — the length
must equal the stored total; otherwise fails with ParameterVectorLengthMismatch
and nothing is modified (spec sections 4.3, 7). -/
def SetOptimizationParameters (m : EndeffectorsMotion) (v : List ℚ) :
    Except MotionError EndeffectorsMotion :=
  if v.length = m.totalParamCount then Except.ok ⟨setLimbs m.limbs v⟩
  else Except.error MotionError.ParameterVectorLengthMismatch

/-- Modelled from the spec: `GetJacobianWrtOptParams(tGlobal, ee, coordinate)`
(declared at `endeffectors_motion.h` line 34, body missing) — a vector of
length equal to the total parameter count, all zero except the slice starting
at `IndexStart ee`, which is filled with the limb's `JacobianRowAt`; an unknown
limb fails with UnknownLimb, a time outside `[0, GetTotalTime]` with
TimeOutOfRange (spec sections 4.3, 7). -/
def GetJacobianWrtOptParams (m : EndeffectorsMotion) (t : ℚ) (ee : ℕ)
    (ax : Coord) : Except MotionError (List ℚ) :=
  match m.limbs[ee]? with
  | none => Except.error MotionError.UnknownLimb
  | some lm =>
      if t < 0 ∨ m.GetTotalTime < t then Except.error MotionError.TimeOutOfRange
      else
        Except.ok
          (List.replicate (m.IndexStart ee) 0 ++ lm.JacobianRowAt t ax ++
            List.replicate
              (m.totalParamCount - (m.IndexStart ee + lm.freeParamCount)) 0)

/-- Modelled from the spec: `GetEndeffectors(tGlobal)` — fan-out of `StateAt`
over every limb at the same global time (spec section 4.3). -/
def GetEndeffectors (m : EndeffectorsMotion) (t : ℚ) :
    Except MotionError (List (PosVelAcc → Coord → ℚ)) :=
  m.limbs.mapM (fun lm => lm.StateAt t)

end EndeffectorsMotion

/-- One record of the contact-schedule input (spec section 6): a phase kind, a
duration and the associated limb index (swinging limb for a swing phase,
next-planned swing limb for a multi-contact phase). -/
structure PhaseRecord : Type where
  kind : ZmpSplineType
  duration : ℚ
  swingOrNext : ℕ
deriving DecidableEq, Repr

/-- Modelled from the spec: building one polynomial segment from one
contact-schedule phase (spec section 4.3).  Coefficients start at zero; the
free coefficients are exactly the ones not pinned by contact constraints —
following the spec's concrete scenario (section 8), a single-limb-swing phase
exposes four free coefficients (indices 0..3) while every multi-contact
(stance) phase is fully fixed. -/
def buildSegment (id : ℕ) (r : PhaseRecord) : ZmpSpline :=
  { id := id, duration := r.duration, type := r.kind,
    currOrPlanned := r.swingOrNext, coeff := fun _ _ => 0,
    free := fun i =>
      decide (r.kind = ZmpSplineType.StepSpline) && decide ((i : ℕ) < 4) }

/-- Modelled from the spec: injecting the limb's initial position as a fixed
value into the first segment's zero-order coefficients (spec section 4.3). -/
def injectInit (p : ℚ × ℚ) : List ZmpSpline → List ZmpSpline
  | [] => []
  | s :: ss =>
      { s with
        coeff := fun ax i =>
          if i = 0 then (match ax with | Coord.X => p.1 | Coord.Y => p.2)
          else s.coeff ax i } :: ss

/-- Modelled from the spec: deriving one limb's ordered segment sequence from
its initial position and its phase list (spec section 4.3). -/
def buildLimb (p : ℚ × ℚ) (phases : List PhaseRecord) : LimbMotion :=
  ⟨injectInit p (phases.enum.map (fun pr => buildSegment pr.1 pr.2))⟩

/-- Total duration of one limb's schedule. -/
def phaseSum (phases : List PhaseRecord) : ℚ :=
  (phases.map PhaseRecord.duration).sum

/-- All limbs' schedules span the same total horizon. -/
def horizonsMatch (sched : List (List PhaseRecord)) : Bool :=
  match sched with
  | [] => true
  | ph :: rest => rest.all (fun q => decide (phaseSum q = phaseSum ph))

/-- Every phase duration in the schedule is strictly positive. -/
def durationsPositive (sched : List (List PhaseRecord)) : Bool :=
  sched.all (fun ph => ph.all (fun r => decide (0 < r.duration)))

/-- Modelled from the spec: the `EndeffectorsMotion` constructor (declared at
`endeffectors_motion.h` lines 27-28, body missing) — given per-limb initial
positions paired with per-limb phase lists, rejects schedules whose per-limb
total durations differ with ScheduleHorizonMismatch and schedules containing a
non-positive duration with InvalidDuration; otherwise builds one `LimbMotion`
per limb (spec sections 4.3, 6, 7). -/
def mkEndeffectorsMotion (inp : List ((ℚ × ℚ) × List PhaseRecord)) :
    Except MotionError EndeffectorsMotion :=
  if horizonsMatch (inp.map Prod.snd) then
    if durationsPositive (inp.map Prod.snd) then
      Except.ok ⟨inp.map (fun pr => buildLimb pr.1 pr.2)⟩
    else Except.error MotionError.InvalidDuration
  else Except.error MotionError.ScheduleHorizonMismatch

/-!  Concrete fixtures: the single-limb scenario of spec section 8 (a swing
segment of duration 0.5 with four free coefficients followed by a fully fixed
stance segment of duration 0.3), and small schedules exercising construction. -/

/-- The swing segment of the spec section 8 scenario: duration 0.5, four free
coefficients (indices 0..3). -/
def scenarioSeg1 : ZmpSpline :=
  { id := 0, duration := mkRat 1 2, type := ZmpSplineType.StepSpline,
    currOrPlanned := 0, coeff := fun _ _ => 0,
    free := fun i => decide ((i : ℕ) < 4) }

/-- The fully fixed stance segment of the spec section 8 scenario:
duration 0.3, no free coefficients. -/
def scenarioSeg2 : ZmpSpline :=
  { id := 1, duration := mkRat 3 10, type := ZmpSplineType.Final4lsSpline,
    currOrPlanned := 0, coeff := fun _ _ => 0, free := fun _ => false }

/-- The single limb of the spec section 8 scenario (total horizon 0.8,
eight free parameters). -/
def scenarioLimb : LimbMotion := ⟨[scenarioSeg1, scenarioSeg2]⟩

/-- A two-limb motion built from two copies of the scenario limb
(offsets 0 and 8, total parameter count 16). -/
def scenarioMotion : EndeffectorsMotion := ⟨[scenarioLimb, scenarioLimb]⟩

/-- A well-formed two-limb construction input: both schedules span 0.8. -/
def goodInput : List ((ℚ × ℚ) × List PhaseRecord) :=
  [((0, 0), [⟨ZmpSplineType.StepSpline, mkRat 1 2, 0⟩,
             ⟨ZmpSplineType.Final4lsSpline, mkRat 3 10, 0⟩]),
   ((1, 1), [⟨ZmpSplineType.Initial4lsSpline, mkRat 4 5, 1⟩])]

/-- The motion that `mkEndeffectorsMotion goodInput` constructs. -/
def goodMotion : EndeffectorsMotion :=
  ⟨goodInput.map (fun pr => buildLimb pr.1 pr.2)⟩

/-- A construction input whose two limbs span different horizons
(0.5 versus 1/3). -/
def badInput : List ((ℚ × ℚ) × List PhaseRecord) :=
  [((0, 0), [⟨ZmpSplineType.StepSpline, mkRat 1 2, 0⟩]),
   ((0, 0), [⟨ZmpSplineType.StepSpline, mkRat 1 3, 1⟩])]

/-- The segment the checked constructor builds for id 7, duration 0.5. -/
def freshSeg : ZmpSpline :=
  { id := 7, duration := mkRat 1 2, type := ZmpSplineType.StepSpline,
    currOrPlanned := 0, coeff := fun _ _ => 0, free := fun _ => false }

/-!  Theorems.  -/

/-- Claim C9: the current-step accessor is valid exactly on the
single-limb-swing kind (`StepSpline`) and then returns the stored limb index;
on every multi-contact kind `GetNextPlannedStep` instead returns that index;
`IsFourLegSupport` is true exactly when the kind is not `StepSpline`. -/
theorem claim_C9 (s : ZmpSpline) :
    (s.GetCurrStep = some s.currOrPlanned ↔ s.type = ZmpSplineType.StepSpline) ∧
    (s.GetCurrStep = none ↔ s.type ≠ ZmpSplineType.StepSpline) ∧
    (s.GetNextPlannedStep = some s.currOrPlanned ↔
      s.type ≠ ZmpSplineType.StepSpline) ∧
    (s.GetNextPlannedStep = none ↔ s.type = ZmpSplineType.StepSpline) ∧
    (s.IsFourLegSupport = true ↔ s.type ≠ ZmpSplineType.StepSpline) := by
  unfold ZmpSpline.GetCurrStep ZmpSpline.GetNextPlannedStep
    ZmpSpline.IsFourLegSupport
  by_cases h : s.type = ZmpSplineType.StepSpline <;> simp [h]

/-- Claim C9 witness: evaluated on the two scenario segments. -/
theorem claim_C9_witness :
    (scenarioSeg1.GetCurrStep = some scenarioSeg1.currOrPlanned ↔
      scenarioSeg1.type = ZmpSplineType.StepSpline) ∧
    (scenarioSeg2.IsFourLegSupport = true ↔
      scenarioSeg2.type ≠ ZmpSplineType.StepSpline) :=
  ⟨(claim_C9 scenarioSeg1).1, (claim_C9 scenarioSeg2).2.2.2.2⟩

/-- Claim C10: for every positive sampling step `dt`, `GetNodeCount` returns
`⌊duration / dt⌋`, the unique integer `n` with `n * dt ≤ duration < (n+1) * dt`;
under the precondition `dt ≠ 0` the function is total. -/
theorem claim_C10 (s : ZmpSpline) (dt : ℚ) (h : 0 < dt) :
    s.GetNodeCount dt = ⌊s.duration / dt⌋ ∧
    (s.GetNodeCount dt : ℚ) * dt ≤ s.duration ∧
    s.duration < ((s.GetNodeCount dt : ℚ) + 1) * dt := by
  refine ⟨rfl, ?_, ?_⟩
  · have h1 : (⌊s.duration / dt⌋ : ℚ) ≤ s.duration / dt := Int.floor_le _
    have h2 := mul_le_mul_of_nonneg_right h1 h.le
    rwa [div_mul_cancel₀ _ h.ne'] at h2
  · have h1 : s.duration / dt < (⌊s.duration / dt⌋ : ℚ) + 1 :=
      Int.lt_floor_add_one _
    have h2 := mul_lt_mul_of_pos_right h1 h
    rwa [div_mul_cancel₀ _ h.ne'] at h2

/-- Claim C10 witness: the scenario swing segment (duration 0.5) sampled at
`dt = 0.2` yields `⌊0.5/0.2⌋ = 2` nodes, with `2 * 0.2 ≤ 0.5 < 3 * 0.2`. -/
theorem claim_C10_witness :
    (0 : ℚ) < 1/5 ∧
    (scenarioSeg1.GetNodeCount (1/5) = ⌊scenarioSeg1.duration / (1/5)⌋ ∧
      (scenarioSeg1.GetNodeCount (1/5) : ℚ) * (1/5) ≤ scenarioSeg1.duration ∧
      scenarioSeg1.duration <
        ((scenarioSeg1.GetNodeCount (1/5) : ℚ) + 1) * (1/5)) :=
  ⟨by norm_num, claim_C10 scenarioSeg1 (1/5) (by norm_num)⟩

/-- Claim C4: `SetOptimizationParameters` fails with
ParameterVectorLengthMismatch exactly when the vector length differs from the
stored total (and then returns no modified state); a limb's
`SetFreeParameterVector` likewise fails with InvalidParameterCount exactly on a
length mismatch. -/
theorem claim_C4 :
    (∀ (m : EndeffectorsMotion) (v : List ℚ),
      m.SetOptimizationParameters v =
          Except.error MotionError.ParameterVectorLengthMismatch ↔
        v.length ≠ m.totalParamCount) ∧
    (∀ (m : EndeffectorsMotion) (v : List ℚ) (m' : EndeffectorsMotion),
      m.SetOptimizationParameters v = Except.ok m' →
        v.length = m.totalParamCount) ∧
    (∀ (lm : LimbMotion) (v : List ℚ),
      lm.SetFreeParameterVector v =
          Except.error MotionError.InvalidParameterCount ↔
        v.length ≠ lm.freeParamCount) ∧
    (∀ (lm : LimbMotion) (v : List ℚ) (lm' : LimbMotion),
      lm.SetFreeParameterVector v = Except.ok lm' →
        v.length = lm.freeParamCount) := by
  refine ⟨fun m v => ?_, fun m v m' => ?_, fun lm v => ?_, fun lm v lm' => ?_⟩ <;>
    simp only [EndeffectorsMotion.SetOptimizationParameters,
      LimbMotion.SetFreeParameterVector] <;>
    split <;> simp_all

/-- Claim C4 witness: on the scenario motion (16 parameters) a 3-entry vector
is rejected with ParameterVectorLengthMismatch. -/
theorem claim_C4_witness :
    scenarioMotion.SetOptimizationParameters [1, 2, 3] =
      Except.error MotionError.ParameterVectorLengthMismatch :=
  (claim_C4.1 scenarioMotion [1, 2, 3]).mpr (by decide)

/-- Claim C8: the checked segment constructor succeeds exactly on a strictly
positive duration — on success `GetDuration` returns that (positive) duration,
on a non-positive duration it fails with InvalidDuration and constructs
nothing — and every segment of a successfully constructed `EndeffectorsMotion`
has strictly positive `GetDuration`. -/
theorem claim_C8 :
    (∀ (id : ℕ) (d : ℚ) (ty : ZmpSplineType) (st : ℕ) (s : ZmpSpline),
      ZmpSpline.mk? id d ty st = Except.ok s →
        s.GetDuration = d ∧ 0 < s.GetDuration) ∧
    (∀ (id : ℕ) (d : ℚ) (ty : ZmpSplineType) (st : ℕ), d ≤ 0 →
      ZmpSpline.mk? id d ty st = Except.error MotionError.InvalidDuration) ∧
    (∀ (inp : List ((ℚ × ℚ) × List PhaseRecord)) (m : EndeffectorsMotion),
      mkEndeffectorsMotion inp = Except.ok m →
        ∀ lm ∈ m.limbs, ∀ s ∈ lm.segments, 0 < s.GetDuration) := by
  refine ⟨fun id d ty st s hok => ?_, fun id d ty st hle => ?_,
    fun inp m hok lm hlm s hs => ?_⟩
  · unfold ZmpSpline.mk? at hok
    split at hok
    · cases hok
      exact ⟨rfl, by assumption⟩
    · cases hok
  · unfold ZmpSpline.mk?
    rw [if_neg (not_lt.mpr hle)]
  · unfold mkEndeffectorsMotion at hok
    split at hok
    · split at hok
      · cases hok
        next hdur =>
        simp only [List.mem_map] at hlm
        obtain ⟨pr, hpr, rfl⟩ := hlm
        have hall := (List.all_eq_true.mp hdur) (pr.2)
          (List.mem_map.mpr ⟨pr, hpr, rfl⟩)
        unfold buildLimb at hs
        rcases hdd : pr.2.enum.map (fun q => buildSegment q.1 q.2) with _ | ⟨s0, srest⟩
        · rw [hdd] at hs
          simp [injectInit] at hs
        · rw [hdd] at hs
          simp only [injectInit, List.mem_cons] at hs
          have hmem : ∀ q ∈ pr.2.enum.map (fun q => buildSegment q.1 q.2),
              0 < q.duration := by
            intro q hq
            simp only [List.mem_map] at hq
            obtain ⟨e, he, rfl⟩ := hq
            have he2 : e.2 ∈ pr.2 := by
              have := List.enum_map_snd pr.2
              exact this ▸ List.mem_map.mpr ⟨e, he, rfl⟩
            have := (List.all_eq_true.mp hall) e.2 he2
            simpa [buildSegment] using of_decide_eq_true this
          rcases hs with rfl | hs
          · have := hmem s0 (hdd ▸ List.mem_cons_self _ _)
            simpa [ZmpSpline.GetDuration] using this
          · exact hmem s (hdd ▸ List.mem_cons_of_mem _ hs)
      · cases hok
    · cases hok

/-- Claim C8 witness: constructing a segment of duration 0.5 succeeds with
positive `GetDuration`; duration 0 is rejected; a segment of the successfully
constructed two-limb good input has positive `GetDuration`. -/
theorem claim_C8_witness :
    (freshSeg.GetDuration = mkRat 1 2 ∧ (0 : ℚ) < freshSeg.GetDuration) ∧
    ZmpSpline.mk? 0 0 ZmpSplineType.StepSpline 0 =
      Except.error MotionError.InvalidDuration ∧
    0 < (buildSegment 1
        ⟨ZmpSplineType.Final4lsSpline, mkRat 3 10, 0⟩).GetDuration := by
  refine ⟨?_, ?_, ?_⟩
  · exact claim_C8.1 7 (mkRat 1 2) ZmpSplineType.StepSpline 0 freshSeg (by decide)
  · exact claim_C8.2.1 0 0 ZmpSplineType.StepSpline 0 le_rfl
  · exact claim_C8.2.2 goodInput goodMotion
      (by norm_num [mkEndeffectorsMotion, goodInput, goodMotion, horizonsMatch,
        durationsPositive, phaseSum, Rat.mkRat_eq_div])
      (buildLimb ((0 : ℚ), (0 : ℚ))
        [⟨ZmpSplineType.StepSpline, mkRat 1 2, 0⟩,
         ⟨ZmpSplineType.Final4lsSpline, mkRat 3 10, 0⟩])
      (List.mem_cons_self _ _)
      (buildSegment 1 ⟨ZmpSplineType.Final4lsSpline, mkRat 3 10, 0⟩)
      (List.mem_cons_of_mem _ (List.mem_cons_self _ _))

/-- Claim C2: the partial derivative of position with respect to a coefficient
is `localTime^coefficientIndex` on the matching axis and 0 on the other axis;
consequently, in the spec's single-limb scenario (swing segment of duration 0.5
with four free coefficients, then a fully fixed stance segment), the row
`JacobianRowAt(0.25, x)` carries `[0.25^0, 0.25^1, 0.25^2, 0.25^3]`
(= `[1, 1/4, 1/16, 1/64]`) at the x-coefficient positions and zeros everywhere
else — in particular the y entries and the fixed second segment contribute
nothing. -/
theorem claim_C2 :
    (∀ (qa ca : Coord) (i : Fin 6) (t : ℚ),
      ZmpSpline.PartialDerivativeWrtCoefficient qa ca i t =
        if qa = ca then t ^ (i : ℕ) else 0) ∧
    scenarioLimb.JacobianRowAt (mkRat 1 4) Coord.X =
      [1, 0, mkRat 1 4, 0, mkRat 1 16, 0, mkRat 1 64, 0] :=
  ⟨fun _ _ _ _ => rfl, by decide⟩

/-- Claim C6: on every segment, order-1 evaluation is the exact derivative in
`t` of order-0 evaluation, and order-2 the exact derivative of order-1 — all
three orders read the same stored coefficient block. -/
theorem claim_C6 (s : ZmpSpline) (ax : Coord) (t : ℚ) (h0 : 0 ≤ t)
    (h1 : t ≤ s.duration) :
    HasDerivAt (fun u => s.GetState PosVelAcc.kPos u ax)
      (s.GetState PosVelAcc.kVel t ax) t ∧
    HasDerivAt (fun u => s.GetState PosVelAcc.kVel u ax)
      (s.GetState PosVelAcc.kAcc t ax) t := by
  constructor
  · simp only [ZmpSpline.GetState]
    exact HasDerivAt.sum fun i _ =>
      (hasDerivAt_pow (i : ℕ) t).const_mul (s.coeff ax i)
  · simp only [ZmpSpline.GetState]
    have key : ∀ i : Fin 6,
        s.coeff ax i * ((i : ℕ) * ((i : ℕ) - 1) * t ^ ((i : ℕ) - 2)) =
        s.coeff ax i *
          ((i : ℕ) * ((((i : ℕ) - 1 : ℕ) : ℚ) * t ^ (((i : ℕ) - 1) - 1))) := by
      intro i
      fin_cases i <;> push_cast <;> ring
    rw [Finset.sum_congr rfl (fun i _ => key i)]
    exact HasDerivAt.sum fun i _ =>
      ((hasDerivAt_pow ((i : ℕ) - 1) t).const_mul (((i : ℕ) : ℚ))).const_mul
        (s.coeff ax i)

/-- Claim C6 witness: instantiated on the scenario swing segment at local time
0.25, inside `[0, duration]`. -/
theorem claim_C6_witness :
    HasDerivAt (fun u => scenarioSeg1.GetState PosVelAcc.kPos u Coord.X)
      (scenarioSeg1.GetState PosVelAcc.kVel (mkRat 1 4) Coord.X) (mkRat 1 4) ∧
    HasDerivAt (fun u => scenarioSeg1.GetState PosVelAcc.kVel u Coord.X)
      (scenarioSeg1.GetState PosVelAcc.kAcc (mkRat 1 4) Coord.X) (mkRat 1 4) :=
  claim_C6 scenarioSeg1 Coord.X (mkRat 1 4) (by decide) (by decide)

/-- A list of positive rationals has nonnegative sum. -/
theorem sum_nonneg_of_pos {l : List ℚ} (h : ∀ x ∈ l, 0 < x) : 0 ≤ l.sum :=
  List.sum_nonneg (fun x hx => (h x hx).le)

/-- Resolving the exact total duration lands on the last segment at its own
duration: every earlier test `t ≤ duration` fails strictly because the
remaining segments have positive durations. -/
theorem resolve_total : ∀ (segs : List ZmpSpline) (hne : segs ≠ [])
    (hpos : ∀ s ∈ segs, 0 < s.duration),
    LimbMotion.resolve segs ((segs.map ZmpSpline.duration).sum) =
      some (segs.getLast hne, (segs.getLast hne).duration) := by
  intro segs
  induction segs with
  | nil => intro hne _; exact absurd rfl hne
  | cons s ss ih =>
    intro hne hpos
    cases ss with
    | nil => simp [LimbMotion.resolve]
    | cons s2 rest =>
      have hmem : ∀ x ∈ (s2 :: rest).map ZmpSpline.duration, 0 < x := by
        intro x hx
        obtain ⟨a, ha, rfl⟩ := List.mem_map.mp hx
        exact hpos a (List.mem_cons_of_mem _ ha)
      have hS : 0 < ((s2 :: rest).map ZmpSpline.duration).sum := by
        have h2 : 0 < s2.duration := hpos s2 (by simp)
        have h3 : 0 ≤ (rest.map ZmpSpline.duration).sum :=
          List.sum_nonneg (fun x hx => (hmem x (List.mem_cons_of_mem _ hx)).le)
        simp only [List.map_cons, List.sum_cons]
        linarith
      have hT : (((s :: s2 :: rest).map ZmpSpline.duration).sum) =
          s.duration + ((s2 :: rest).map ZmpSpline.duration).sum := by
        simp
      have hgt : ¬ ((((s :: s2 :: rest).map ZmpSpline.duration).sum) ≤
          s.duration) := by
        rw [hT]
        linarith
      rw [show LimbMotion.resolve (s :: s2 :: rest)
            (((s :: s2 :: rest).map ZmpSpline.duration).sum) =
          if (((s :: s2 :: rest).map ZmpSpline.duration).sum) ≤ s.duration then
            some (s, ((s :: s2 :: rest).map ZmpSpline.duration).sum)
          else LimbMotion.resolve (s2 :: rest)
            ((((s :: s2 :: rest).map ZmpSpline.duration).sum) - s.duration)
          from rfl]
      rw [if_neg hgt, hT, add_sub_cancel_left]
      rw [List.getLast_cons (List.cons_ne_nil s2 rest)]
      exact ih (List.cons_ne_nil s2 rest)
        (fun a ha => hpos a (List.mem_cons_of_mem _ ha))

/-- Claim C5: for every limb with (nonempty) positive-duration segments,
querying the state at exactly the total time succeeds and evaluates the last
segment at a local time equal to that segment's own duration, while any query
beyond the total time or below zero fails with TimeOutOfRange instead of
clamping. -/
theorem claim_C5 (lm : LimbMotion) (hne : lm.segments ≠ [])
    (hpos : ∀ s ∈ lm.segments, 0 < s.duration) :
    lm.StateAt lm.totalTime =
      Except.ok (fun d ax =>
        (lm.segments.getLast hne).GetState d
          (lm.segments.getLast hne).duration ax) ∧
    (∀ t : ℚ, lm.totalTime < t →
      lm.StateAt t = Except.error MotionError.TimeOutOfRange) ∧
    (∀ t : ℚ, t < 0 →
      lm.StateAt t = Except.error MotionError.TimeOutOfRange) := by
  refine ⟨?_, ?_, ?_⟩
  · have htot : 0 ≤ lm.totalTime := by
      have : ∀ x ∈ lm.segments.map ZmpSpline.duration, 0 < x := by
        intro x hx
        obtain ⟨a, ha, rfl⟩ := List.mem_map.mp hx
        exact hpos a ha
      exact sum_nonneg_of_pos this
    unfold LimbMotion.StateAt
    rw [if_neg (by push_neg; exact ⟨not_lt.mp (by simp [htot]), le_refl _⟩)]
    rw [show lm.totalTime = ((lm.segments.map ZmpSpline.duration).sum) from rfl]
    rw [resolve_total lm.segments hne hpos]
  · intro t ht
    unfold LimbMotion.StateAt
    rw [if_pos (Or.inr ht)]
  · intro t ht
    unfold LimbMotion.StateAt
    rw [if_pos (Or.inl ht)]

/-- Claim C5 witness: the scenario limb (durations 0.5 and 0.3) evaluated at
its total time 0.8 resolves to the stance segment at local time 0.3; times 1
and -1 are rejected. -/
theorem claim_C5_witness :
    scenarioLimb.StateAt scenarioLimb.totalTime =
      Except.ok (fun d ax =>
        (scenarioLimb.segments.getLast (by decide)).GetState d
          (scenarioLimb.segments.getLast (by decide)).duration ax) ∧
    scenarioLimb.StateAt 1 = Except.error MotionError.TimeOutOfRange ∧
    scenarioLimb.StateAt (-1) = Except.error MotionError.TimeOutOfRange := by
  have h := claim_C5 scenarioLimb (by decide) (by decide)
  exact ⟨h.1, h.2.1 1 (by norm_num [scenarioLimb, LimbMotion.totalTime,
      scenarioSeg1, scenarioSeg2, Rat.mkRat_eq_div]),
    h.2.2 (-1) (by norm_num)⟩

/-- Injecting the initial position changes only coefficients, never durations. -/
theorem injectInit_map_duration (p : ℚ × ℚ) (l : List ZmpSpline) :
    (injectInit p l).map ZmpSpline.duration = l.map ZmpSpline.duration := by
  cases l <;> rfl

/-- A built limb spans exactly the total duration of its schedule. -/
theorem buildLimb_totalTime (p : ℚ × ℚ) (ph : List PhaseRecord) :
    (buildLimb p ph).totalTime = phaseSum ph := by
  unfold buildLimb LimbMotion.totalTime phaseSum
  rw [injectInit_map_duration, List.map_map]
  rw [show (ZmpSpline.duration ∘ fun pr : ℕ × PhaseRecord =>
      buildSegment pr.1 pr.2) = (PhaseRecord.duration ∘ Prod.snd) from rfl]
  rw [← List.map_map, List.enum_map_snd]

/-- Claim C7: on every successfully constructed `EndeffectorsMotion` the sum of
segment durations of every limb equals the shared `GetTotalTime`; schedules
whose per-limb total durations differ are rejected at construction with
ScheduleHorizonMismatch. -/
theorem claim_C7 (inp : List ((ℚ × ℚ) × List PhaseRecord)) :
    (∀ m : EndeffectorsMotion, mkEndeffectorsMotion inp = Except.ok m →
      ∀ lm ∈ m.limbs, lm.totalTime = m.GetTotalTime) ∧
    (horizonsMatch (inp.map Prod.snd) = false →
      mkEndeffectorsMotion inp =
        Except.error MotionError.ScheduleHorizonMismatch) := by
  constructor
  · intro m hok lm hlm
    unfold mkEndeffectorsMotion at hok
    split at hok
    · split at hok
      · next hh _ =>
        cases hok
        obtain ⟨pr, hpr, rfl⟩ := List.mem_map.mp hlm
        cases inp with
        | nil => simp at hpr
        | cons hd tl =>
          have hhead : (EndeffectorsMotion.GetTotalTime
              ⟨(hd :: tl).map (fun pr => buildLimb pr.1 pr.2)⟩) =
              phaseSum hd.2 := by
            simp only [List.map_cons, EndeffectorsMotion.GetTotalTime]
            exact buildLimb_totalTime hd.1 hd.2
          rw [hhead, buildLimb_totalTime]
          rcases List.mem_cons.mp hpr with rfl | htl
          · rfl
          · obtain ⟨⟨px, py⟩, phs⟩ := pr
            have hh2 : ((tl.map Prod.snd).all
                (fun q => decide (phaseSum q = phaseSum hd.2))) = true := by
              rw [List.map_cons] at hh
              exact hh
            exact of_decide_eq_true (List.all_eq_true.mp hh2 phs
              (List.mem_map.mpr ⟨((px, py), phs), htl, rfl⟩))
      · exact absurd hok (by simp)
    · exact absurd hok (by simp)
  · intro hfalse
    unfold mkEndeffectorsMotion
    rw [if_neg (by simp [hfalse])]

/-- Claim C7 witness: in the constructed good input the first limb's total
time equals the shared horizon 0.8; the mismatched bad input (0.5 versus 1/3)
is rejected with ScheduleHorizonMismatch. -/
theorem claim_C7_witness :
    (buildLimb ((0 : ℚ), (0 : ℚ))
        [⟨ZmpSplineType.StepSpline, mkRat 1 2, 0⟩,
         ⟨ZmpSplineType.Final4lsSpline, mkRat 3 10, 0⟩]).totalTime =
      goodMotion.GetTotalTime ∧
    mkEndeffectorsMotion badInput =
      Except.error MotionError.ScheduleHorizonMismatch :=
  ⟨(claim_C7 goodInput).1 goodMotion
      (by norm_num [mkEndeffectorsMotion, goodInput, goodMotion, horizonsMatch,
        durationsPositive, phaseSum, Rat.mkRat_eq_div])
      _ (List.mem_cons_self _ _),
    (claim_C7 badInput).2
      (by norm_num [horizonsMatch, badInput, phaseSum, Rat.mkRat_eq_div])⟩

/-- Reading a coefficient slice only looks at the listed indices. -/
theorem coeffSlice_congr : ∀ (l : List (Fin 6)) (c₁ c₂ : Coord → Fin 6 → ℚ),
    (∀ i ∈ l, ∀ ax, c₁ ax i = c₂ ax i) →
    ZmpSpline.coeffSlice l c₁ = ZmpSpline.coeffSlice l c₂ := by
  intro l
  induction l with
  | nil => intro c₁ c₂ _; rfl
  | cons j js ih =>
    intro c₁ c₂ h
    simp only [ZmpSpline.coeffSlice, List.flatMap_cons] at ih ⊢
    rw [h j (by simp) Coord.X, h j (by simp) Coord.Y]
    rw [ih c₁ c₂ (fun i hi ax => h i (List.mem_cons_of_mem _ hi) ax)]

/-- Unfolding one step of a coefficient slice. -/
theorem coeffSlice_cons (j : Fin 6) (js : List (Fin 6))
    (c : Coord → Fin 6 → ℚ) :
    ZmpSpline.coeffSlice (j :: js) c =
      c Coord.X j :: c Coord.Y j :: ZmpSpline.coeffSlice js c := rfl

/-- Reading back a written slice over distinct indices returns the written
values: the per-segment set/get round trip. -/
theorem coeffSlice_writeCoeffs : ∀ (l : List (Fin 6)), l.Nodup →
    ∀ (v : List ℚ) (c : Coord → Fin 6 → ℚ), v.length = 2 * l.length →
    ZmpSpline.coeffSlice l (ZmpSpline.writeCoeffs l v c) = v := by
  intro l
  induction l with
  | nil =>
    intro _ v c hv
    have hz : v = [] := List.length_eq_zero.mp (by simpa using hv)
    subst hz
    rfl
  | cons j js ih =>
    intro hnd v c hv
    have hnd' := List.nodup_cons.mp hnd
    match v with
    | [] => simp at hv
    | [a] =>
      simp only [List.length_cons, List.length_nil] at hv
      omega
    | a :: b :: vs =>
      have hlen : vs.length = 2 * js.length := by
        simp only [List.length_cons] at hv
        omega
      have hcong : ZmpSpline.coeffSlice js
          (ZmpSpline.writeCoeffs (j :: js) (a :: b :: vs) c) =
          ZmpSpline.coeffSlice js (ZmpSpline.writeCoeffs js vs c) := by
        apply coeffSlice_congr
        intro i hi ax
        have hij : ¬ (i = j) := fun h => hnd'.1 (h ▸ hi)
        simp only [ZmpSpline.writeCoeffs]
        rw [if_neg hij]
      rw [coeffSlice_cons, hcong, ih hnd'.2 vs c hlen]
      simp [ZmpSpline.writeCoeffs]

/-- The free-index list of a segment has no duplicates. -/
theorem freeIdx_nodup (s : ZmpSpline) : (ZmpSpline.freeIdx s).Nodup :=
  List.Nodup.filter _ (List.nodup_finRange 6)

/-- Per-segment round trip: `segGet` after `segSet` returns the written slice. -/
theorem segGet_segSet (s : ZmpSpline) (v : List ℚ)
    (hv : v.length = s.freeCount) :
    ZmpSpline.segGet (ZmpSpline.segSet s v) = v := by
  unfold ZmpSpline.segGet ZmpSpline.segSet
  exact coeffSlice_writeCoeffs (ZmpSpline.freeIdx s) (freeIdx_nodup s) v s.coeff
    (by simpa [ZmpSpline.freeCount] using hv)

/-- Per-limb round trip over the segment list: distributing a vector of the
right total length over the segments and concatenating the reads returns it. -/
theorem setSegs_roundtrip : ∀ (segs : List ZmpSpline) (v : List ℚ),
    v.length = (segs.map ZmpSpline.freeCount).sum →
    (LimbMotion.setSegs segs v).flatMap ZmpSpline.segGet = v := by
  intro segs
  induction segs with
  | nil =>
    intro v hv
    simp only [LimbMotion.setSegs, List.flatMap_nil]
    exact (List.length_eq_zero.mp (by simpa using hv)).symm
  | cons s ss ih =>
    intro v hv
    simp only [List.map_cons, List.sum_cons] at hv
    simp only [LimbMotion.setSegs, List.flatMap_cons]
    rw [segGet_segSet s _ (by
      rw [List.length_take, hv]
      exact Nat.min_eq_left (Nat.le_add_right _ _))]
    rw [ih (v.drop s.freeCount) (by rw [List.length_drop]; omega)]
    exact List.take_append_drop _ v

/-- Whole-vector round trip over the limbs. -/
theorem setLimbs_roundtrip : ∀ (ls : List LimbMotion) (v : List ℚ),
    v.length = (ls.map LimbMotion.freeParamCount).sum →
    (EndeffectorsMotion.setLimbs ls v).flatMap
      LimbMotion.GetFreeParameterVector = v := by
  intro ls
  induction ls with
  | nil =>
    intro v hv
    simp only [EndeffectorsMotion.setLimbs, List.flatMap_nil]
    exact (List.length_eq_zero.mp (by simpa using hv)).symm
  | cons lm ls2 ih =>
    intro v hv
    simp only [List.map_cons, List.sum_cons] at hv
    simp only [EndeffectorsMotion.setLimbs, List.flatMap_cons]
    rw [show LimbMotion.GetFreeParameterVector
        ⟨LimbMotion.setSegs lm.segments (v.take lm.freeParamCount)⟩ =
        (LimbMotion.setSegs lm.segments (v.take lm.freeParamCount)).flatMap
          ZmpSpline.segGet from rfl]
    rw [setSegs_roundtrip lm.segments _ (by
      rw [List.length_take, hv]
      exact Nat.min_eq_left (Nat.le_add_right _ _))]
    rw [ih (v.drop lm.freeParamCount) (by rw [List.length_drop]; omega)]
    exact List.take_append_drop _ v

/-- Claim C3: setting a parameter vector of the correct length and reading it
back returns exactly the same vector, at the limb level
(`SetFreeParameterVector` / `GetFreeParameterVector`) and at the aggregate
level (`SetOptimizationParameters` / `GetOptimizationParameters`) — both
directions traverse limbs, segments, coefficients and axes in the same fixed
order. -/
theorem claim_C3 :
    (∀ (lm : LimbMotion) (v : List ℚ), v.length = lm.freeParamCount →
      (lm.SetFreeParameterVector v).map LimbMotion.GetFreeParameterVector =
        Except.ok v) ∧
    (∀ (m : EndeffectorsMotion) (v : List ℚ), v.length = m.totalParamCount →
      (m.SetOptimizationParameters v).map
        EndeffectorsMotion.GetOptimizationParameters = Except.ok v) := by
  constructor
  · intro lm v hv
    unfold LimbMotion.SetFreeParameterVector
    rw [if_pos hv]
    simp only [Except.map]
    rw [show LimbMotion.GetFreeParameterVector ⟨LimbMotion.setSegs lm.segments v⟩ =
        (LimbMotion.setSegs lm.segments v).flatMap ZmpSpline.segGet from rfl]
    rw [setSegs_roundtrip lm.segments v hv]
  · intro m v hv
    unfold EndeffectorsMotion.SetOptimizationParameters
    rw [if_pos hv]
    simp only [Except.map]
    rw [show EndeffectorsMotion.GetOptimizationParameters
        ⟨EndeffectorsMotion.setLimbs m.limbs v⟩ =
        (EndeffectorsMotion.setLimbs m.limbs v).flatMap
          LimbMotion.GetFreeParameterVector from rfl]
    rw [setLimbs_roundtrip m.limbs v hv]

/-- Claim C3 witness: round trip of an 8-entry vector through the scenario
limb and of a 16-entry vector through the two-limb scenario motion. -/
theorem claim_C3_witness :
    (scenarioLimb.SetFreeParameterVector [1, 2, 3, 4, 5, 6, 7, 8]).map
      LimbMotion.GetFreeParameterVector =
        Except.ok [1, 2, 3, 4, 5, 6, 7, 8] ∧
    (scenarioMotion.SetOptimizationParameters
        [1, 2, 3, 4, 5, 6, 7, 8, 9, 10, 11, 12, 13, 14, 15, 16]).map
      EndeffectorsMotion.GetOptimizationParameters =
        Except.ok [1, 2, 3, 4, 5, 6, 7, 8, 9, 10, 11, 12, 13, 14, 15, 16] :=
  ⟨claim_C3.1 scenarioLimb _ (by decide),
   claim_C3.2 scenarioMotion _ (by decide)⟩

/-- A flat-mapped list of pairs has twice the length of its source. -/
theorem flatMap_pair_length {a b : Type} (l : List a) (f g : a → b) :
    (l.flatMap (fun i => [f i, g i])).length = 2 * l.length := by
  induction l with
  | nil => rfl
  | cons x xs ih =>
    simp only [List.flatMap_cons, List.length_append, List.length_cons,
      List.length_nil, ih]
    omega

/-- The active segment's Jacobian block has exactly `freeCount` entries. -/
theorem segJacEntries_length (s : ZmpSpline) (ax : Coord) (t : ℚ) :
    (LimbMotion.segJacEntries s ax t).length = s.freeCount := by
  unfold LimbMotion.segJacEntries ZmpSpline.freeCount
  exact flatMap_pair_length _ _ _

/-- The zero blocks of the inactive segments have the expected total length. -/
theorem flatMap_segZeros_length (ss : List ZmpSpline) :
    (ss.flatMap LimbMotion.segZeros).length =
      (ss.map ZmpSpline.freeCount).sum := by
  induction ss with
  | nil => rfl
  | cons x xs ih =>
    simp [List.flatMap_cons, LimbMotion.segZeros, ih]

/-- The Jacobian row walk emits one entry per free parameter of the limb. -/
theorem jacAux_length : ∀ (segs : List ZmpSpline) (t : ℚ) (ax : Coord),
    (LimbMotion.jacAux segs t ax).length = (segs.map ZmpSpline.freeCount).sum := by
  intro segs
  induction segs with
  | nil => intro t ax; rfl
  | cons s ss ih =>
    intro t ax
    cases ss with
    | nil => simp [LimbMotion.jacAux, segJacEntries_length]
    | cons s2 rest =>
      rw [show LimbMotion.jacAux (s :: s2 :: rest) t ax =
          if t ≤ s.duration then
            LimbMotion.segJacEntries s ax t ++
              (s2 :: rest).flatMap LimbMotion.segZeros
          else LimbMotion.segZeros s ++
            LimbMotion.jacAux (s2 :: rest) (t - s.duration) ax from rfl]
      split
      · rw [List.length_append, segJacEntries_length, flatMap_segZeros_length]
        simp
      · simp [LimbMotion.segZeros, ih]

/-- `JacobianRowAt` has the same length as `GetFreeParameterVector`. -/
theorem JacobianRowAt_length (lm : LimbMotion) (t : ℚ) (ax : Coord) :
    (lm.JacobianRowAt t ax).length = lm.freeParamCount :=
  jacAux_length lm.segments t ax

/-- Any position of an all-zero block reads zero (also out of range, since the
default is zero). -/
theorem getD_replicate_zero (n k : ℕ) :
    (List.replicate n (0 : ℚ)).getD k 0 = 0 := by
  rcases Nat.lt_or_ge k n with h | h
  · rw [List.getD_eq_getElem _ _ (by simpa using h)]
    simp
  · exact List.getD_eq_default _ _ (by simpa using h)

/-- The block offsets partition the total parameter count: the offset of a
valid limb plus its block length, plus everything after it, is the total. -/
theorem totalParamCount_split (m : EndeffectorsMotion) (ee : ℕ)
    (lm : LimbMotion) (hee : m.limbs[ee]? = some lm) :
    m.totalParamCount = m.IndexStart ee + (lm.freeParamCount +
      ((m.limbs.drop (ee + 1)).map LimbMotion.freeParamCount).sum) := by
  obtain ⟨hlt, hget⟩ := List.getElem?_eq_some.mp hee
  unfold EndeffectorsMotion.totalParamCount EndeffectorsMotion.IndexStart
  conv_lhs => rw [← List.take_append_drop ee m.limbs]
  rw [List.map_append, List.sum_append, List.drop_eq_getElem_cons hlt, hget]
  simp

/-- Claim C1: for a known limb id and a time within `[0, GetTotalTime]`,
`GetJacobianWrtOptParams` returns a row of length equal to the total parameter
count that is exactly zero at every index outside the limb's recorded slice
`[IndexStart, IndexStart + freeParamCount)` and coincides with the limb's own
`JacobianRowAt` inside the slice. -/
theorem claim_C1 (m : EndeffectorsMotion) (t : ℚ) (ee : ℕ) (ax : Coord)
    (lm : LimbMotion) (hee : m.limbs[ee]? = some lm) (h0 : 0 ≤ t)
    (h1 : t ≤ m.GetTotalTime) :
    (m.GetJacobianWrtOptParams t ee ax).map List.length =
      Except.ok m.totalParamCount ∧
    (∀ k : ℕ, k < m.IndexStart ee ∨ m.IndexStart ee + lm.freeParamCount ≤ k →
      (m.GetJacobianWrtOptParams t ee ax).map (fun r => r.getD k 0) =
        Except.ok 0) ∧
    (∀ j : ℕ,
      (m.GetJacobianWrtOptParams t ee ax).map
          (fun r => r.getD (m.IndexStart ee + j) 0) =
        Except.ok ((lm.JacobianRowAt t ax).getD j 0)) := by
  have hsplit := totalParamCount_split m ee lm hee
  have hrow : m.GetJacobianWrtOptParams t ee ax =
      Except.ok (List.replicate (m.IndexStart ee) 0 ++ lm.JacobianRowAt t ax ++
        List.replicate
          (m.totalParamCount - (m.IndexStart ee + lm.freeParamCount)) 0) := by
    simp only [EndeffectorsMotion.GetJacobianWrtOptParams, hee]
    rw [if_neg (not_or.mpr ⟨not_lt.mpr h0, not_lt.mpr h1⟩)]
  refine ⟨?_, ?_, ?_⟩
  · rw [hrow]
    simp only [Except.map, List.length_append, List.length_replicate,
      JacobianRowAt_length]
    rw [hsplit]
    congr 1
    omega
  · intro k hk
    rw [hrow]
    simp only [Except.map]
    congr 1
    rcases hk with hk | hk
    · rw [List.append_assoc,
        List.getD_append _ _ _ _ (by simpa using hk),
        getD_replicate_zero]
    · rw [List.getD_append_right _ _ _ _
        (by simp [JacobianRowAt_length]; omega)]
      rw [getD_replicate_zero]
  · intro j
    rw [hrow]
    simp only [Except.map]
    congr 1
    rw [List.append_assoc,
      List.getD_append_right _ _ _ _ (by simp),
      List.length_replicate, Nat.add_sub_cancel_left]
    rcases Nat.lt_or_ge j lm.freeParamCount with hj | hj
    · rw [List.getD_append _ _ _ _ (by simpa [JacobianRowAt_length] using hj)]
    · rw [List.getD_append_right _ _ _ _
        (by simpa [JacobianRowAt_length] using hj)]
      rw [getD_replicate_zero,
        List.getD_eq_default _ _ (by simpa [JacobianRowAt_length] using hj)]

/-- Claim C1 witness: in the two-limb scenario motion (offsets 0 and 8, total
16) at `t = 0.25` for the second limb: the row has length 16, index 0 (outside
the slice) is zero, and slice position 2 carries the limb's own Jacobian
entry. -/
theorem claim_C1_witness :
    (scenarioMotion.GetJacobianWrtOptParams (mkRat 1 4) 1 Coord.X).map
      List.length = Except.ok scenarioMotion.totalParamCount ∧
    (scenarioMotion.GetJacobianWrtOptParams (mkRat 1 4) 1 Coord.X).map
      (fun r => r.getD 0 0) = Except.ok 0 ∧
    (scenarioMotion.GetJacobianWrtOptParams (mkRat 1 4) 1 Coord.X).map
      (fun r => r.getD (scenarioMotion.IndexStart 1 + 2) 0) =
        Except.ok ((scenarioLimb.JacobianRowAt (mkRat 1 4) Coord.X).getD 2 0) := by
  have h := claim_C1 scenarioMotion (mkRat 1 4) 1 Coord.X scenarioLimb
    (by decide) (by decide)
    (by norm_num [EndeffectorsMotion.GetTotalTime, scenarioMotion, scenarioLimb,
      LimbMotion.totalTime, scenarioSeg1, scenarioSeg2, Rat.mkRat_eq_div])
  exact ⟨h.1, h.2.1 0 (Or.inl (by decide)), h.2.2 2⟩

end Xpp
